import Mathlib

/-!
Verification of the version algebra and release-state reconciliation logic of
`release-man` (`src/script.js`).

JavaScript strings are modeled as Lean `String` / `List Char`.  The numeric
values produced by `Number(...)`, `parseInt(...)` and array indexing are
naturals, with `NaN` and `undefined` tracked explicitly through `Option`:
a part read from a split version string has type `Option (Option Nat)`,
where `none` is JavaScript's `undefined` (index out of range), `some none`
is `NaN`, and `some (some n)` is the number `n`.  Numeric components are
modeled as exact naturals (the JavaScript safe-integer range idealization).
-/

namespace ReleaseMan

/-- `s.replace(/^v/, "")` on the character list: drops one leading `'v'`. -/
def stripVC : List Char → List Char
  | [] => []
  | c :: rest => if c = 'v' then rest else c :: rest

/-- `version.replace(/^v/, "")` (used throughout `script.js`). -/
def stripVS (s : String) : String := ⟨stripVC s.data⟩

/-- The ASCII whitespace characters relevant to `String.prototype.trim`
for the inputs handled here (the DOM field values are ASCII). -/
def isJsSpace (c : Char) : Bool :=
  c = ' ' || c = '\t' || c = '\n' || c = '\r'

/-- JavaScript `String.prototype.trim` (drops whitespace at both ends). -/
def jsTrim (s : String) : String :=
  ⟨((s.data.dropWhile isJsSpace).reverse.dropWhile isJsSpace).reverse⟩

/-- JavaScript `String.prototype.split` with a single-character separator:
`"".split(sep) = [""]`, `"a-b".split("-") = ["a","b"]`, etc. -/
def splitOnC (sep : Char) : List Char → List (List Char)
  | [] => [[]]
  | c :: rest =>
    if c = sep then [] :: splitOnC sep rest
    else
      match splitOnC sep rest with
      | [] => [[c]]
      | h :: t => (c :: h) :: t

/-- Value of a decimal digit character. -/
def digitVal (c : Char) : Nat := c.toNat - 48

/-- Decimal value of a digit string (the value `Number` / `parseInt`
produce on an all-digit string). -/
def digitsToNat (cs : List Char) : Nat :=
  cs.foldl (fun n c => 10 * n + digitVal c) 0

/-- JavaScript `Number(s)` for the strings arising from splitting version
strings: `""` is `0`, an all-digit string is its decimal value, and any
string containing a non-digit (e.g. `"3+build"`) is `NaN` (`none`). -/
def jsNum (cs : List Char) : Option Nat :=
  if cs = [] then some 0
  else if cs.all Char.isDigit then some (digitsToNat cs)
  else none

/-- JavaScript `parseInt(s)` for the strings arising here: the longest
digit run at the front, `NaN` (`none`) if there is none. -/
def jsParseInt (cs : List Char) : Option Nat :=
  if cs.takeWhile Char.isDigit = [] then none
  else some (digitsToNat (cs.takeWhile Char.isDigit))

/-- Decimal digit characters of `n` (fuel-based so it evaluates by `decide`). -/
def natDigitsAux : Nat → Nat → List Char
  | 0, _ => []
  | fuel + 1, n =>
    if n < 10 then [Nat.digitChar n]
    else natDigitsAux fuel (n / 10) ++ [Nat.digitChar (n % 10)]

/-- Decimal digit characters of `n`. -/
def natDigits (n : Nat) : List Char := natDigitsAux (n + 1) n

/-- Decimal rendering of a natural, as in JavaScript template literals. -/
def natString (n : Nat) : String := ⟨natDigits n⟩

/-- The regex character class `\w` of `script.js`: `[A-Za-z0-9_]`. -/
def isWordChar (c : Char) : Bool := c.isAlphanum || c = '_'

/-- The regex character class `[\w.-]` used for pre-release and build
metadata in `isValidSemver`. -/
def isSuffixChar (c : Char) : Bool := isWordChar c || c = '.' || c = '-'

/-- Matcher for the build-metadata part `(\+[\w.-]+)?$` of the
`isValidSemver` regex (`script.js:109`).  The classes exclude `'+'`, so
greedy matching is deterministic. -/
def buildOk (cs : List Char) : Bool :=
  match cs with
  | [] => true
  | c :: rest =>
    if c = '+' then
      !(rest.takeWhile isSuffixChar = []) && rest.dropWhile isSuffixChar = []
    else false

/-- Matcher for the optional suffix `(-[\w.-]+)?(\+[\w.-]+)?$` of the
`isValidSemver` regex (`script.js:109`). -/
def suffixOk (cs : List Char) : Bool :=
  match cs with
  | [] => true
  | c :: rest =>
    if c = '-' then
      !(rest.takeWhile isSuffixChar = []) && buildOk (rest.dropWhile isSuffixChar)
    else buildOk (c :: rest)

/-- Matches `\d+\.` at the front: returns the digit group and the rest
after the dot. -/
def chopNumDot (cs : List Char) : Option (List Char × List Char) :=
  if cs.takeWhile Char.isDigit = [] then none
  else
    match cs.dropWhile Char.isDigit with
    | c :: t => if c = '.' then some (cs.takeWhile Char.isDigit, t) else none
    | [] => none

/-- Deterministic matcher for the `VersionUtils.isValidSemver` regex
`^\d+\.\d+\.\d+(-[\w.-]+)?(\+[\w.-]+)?$` applied after stripping one
leading `v` (`script.js:107-111`), returning the values of the three
`\d+` groups when the whole string matches.  All character classes after
the triple exclude `'.'` resp. `'+'`, so maximal-munch matching decides
the regex exactly. -/
def parseSemver (s : String) : Option (Nat × Nat × Nat) :=
  match chopNumDot (stripVC s.data) with
  | none => none
  | some (d1, r1) =>
    match chopNumDot r1 with
    | none => none
    | some (d2, r2) =>
      if r2.takeWhile Char.isDigit = [] then none
      else if suffixOk (r2.dropWhile Char.isDigit) then
        some (digitsToNat d1, digitsToNat d2,
              digitsToNat (r2.takeWhile Char.isDigit))
      else none

/-- `VersionUtils.isValidSemver` (`script.js:107-111`). -/
def isValidSemver (s : String) : Bool := (parseSemver s).isSome

/-- `version.replace(/^v/, "").split("-")[0]` — the cleaning step shared by
`compareSemver`, `getNextVersion` and `isNextVersion`
(`script.js:114-115,128,143-144`). -/
def cleanVer (s : String) : List Char :=
  (splitOnC '-' (stripVC s.data)).headD []

/-- `clean.split(".").map(Number)` — the parts array of a version string. -/
def numParts (s : String) : List (Option Nat) :=
  (splitOnC '.' (cleanVer s)).map jsNum

/-- `parts1[i] > parts2[i]` on JavaScript numbers: false whenever either
side is `NaN` or `undefined`. -/
def jsGtIdx : Option (Option Nat) → Option (Option Nat) → Bool
  | some (some a), some (some b) => decide (b < a)
  | _, _ => false

/-- `parts1[i] < parts2[i]` on JavaScript numbers. -/
def jsLtIdx : Option (Option Nat) → Option (Option Nat) → Bool
  | some (some a), some (some b) => decide (a < b)
  | _, _ => false

/-- Strict equality `===` on JavaScript numbers-or-undefined:
`undefined === undefined` is true, `NaN === x` is false. -/
def jsEqIdx : Option (Option Nat) → Option (Option Nat) → Bool
  | some (some a), some (some b) => decide (a = b)
  | none, none => true
  | _, _ => false

/-- `x + 1` on a JavaScript number-or-undefined: `NaN + 1` and
`undefined + 1` are both `NaN`. -/
def jsSuccIdx : Option (Option Nat) → Option (Option Nat)
  | some (some n) => some (some (n + 1))
  | _ => some none

/-- Rendering of `parts[i]` inside a template literal. -/
def jsShowIdx : Option (Option Nat) → String
  | some (some n) => natString n
  | some none => "NaN"
  | none => "undefined"

/-- `VersionUtils.compareSemver` (`script.js:113-125`); the three-step
loop with early return is unrolled. -/
def compareSemver (version1 version2 : String) : Int :=
  let parts1 := numParts version1
  let parts2 := numParts version2
  if jsGtIdx parts1[0]? parts2[0]? then 1
  else if jsLtIdx parts1[0]? parts2[0]? then -1
  else if jsGtIdx parts1[1]? parts2[1]? then 1
  else if jsLtIdx parts1[1]? parts2[1]? then -1
  else if jsGtIdx parts1[2]? parts2[2]? then 1
  else if jsLtIdx parts1[2]? parts2[2]? then -1
  else 0

/-- `VersionUtils.getNextVersion` (`script.js:127-140`).  The `switch`
on the `type` string falls through to the `patch` case by default. -/
def getNextVersion (currentVersion : String) (type : String) : String :=
  let parts := numParts currentVersion
  if type = "major" then
    "v" ++ jsShowIdx (jsSuccIdx parts[0]?) ++ ".0.0"
  else if type = "minor" then
    "v" ++ jsShowIdx parts[0]? ++ "." ++ jsShowIdx (jsSuccIdx parts[1]?) ++ ".0"
  else
    "v" ++ jsShowIdx parts[0]? ++ "." ++ jsShowIdx parts[1]? ++ "." ++
      jsShowIdx (jsSuccIdx parts[2]?)

/-- `VersionUtils.isNextVersion` (`script.js:142-158`).  The JavaScript
function returns `"patch"`, `"minor"`, `"major"`, or `false`; the `false`
result is modeled as `none`. -/
def isNextVersion (current next : String) : Option String :=
  let currentParts := numParts current
  let nextParts := numParts next
  if jsEqIdx nextParts[2]? (jsSuccIdx currentParts[2]?) &&
     jsEqIdx nextParts[1]? currentParts[1]? &&
     jsEqIdx nextParts[0]? currentParts[0]? then some "patch"
  else if jsEqIdx nextParts[1]? (jsSuccIdx currentParts[1]?) &&
          jsEqIdx nextParts[2]? (some (some 0)) &&
          jsEqIdx nextParts[0]? currentParts[0]? then some "minor"
  else if jsEqIdx nextParts[0]? (jsSuccIdx currentParts[0]?) &&
          jsEqIdx nextParts[1]? (some (some 0)) &&
          jsEqIdx nextParts[2]? (some (some 0)) then some "major"
  else none

/-- A validator-accepted version whose optional suffix does not start with
`'+'`: no build metadata directly after the patch component (a `'+'` after
the pre-release dash is fine, since everything from the first `'-'` is
stripped by `split("-")[0]`). -/
def noBuild (s : String) : Bool :=
  !((cleanVer s).any (fun c => c = '+'))

/-- Modelled from the spec: lexicographic comparison of the
(major, minor, patch) triples, as `compare` is specified in §4.1/§8. -/
def tripleCompare : Nat × Nat × Nat → Nat × Nat × Nat → Int
  | (a1, a2, a3), (b1, b2, b3) =>
    if b1 < a1 then 1 else if a1 < b1 then -1
    else if b2 < a2 then 1 else if a2 < b2 then -1
    else if b3 < a3 then 1 else if a3 < b3 then -1
    else 0

/-- Modelled from the spec: the language of the numeric-triple grammar
`^\d+\.\d+\.\d+(-[\w.-]+)?(\+[\w.-]+)?$` as a structural decomposition. -/
def MatchesGrammar (cs : List Char) : Prop :=
  ∃ d1 d2 d3 suf, cs = d1 ++ '.' :: (d2 ++ '.' :: (d3 ++ suf)) ∧
    d1 ≠ [] ∧ d2 ≠ [] ∧ d3 ≠ [] ∧
    (∀ c ∈ d1, c.isDigit = true) ∧ (∀ c ∈ d2, c.isDigit = true) ∧
    (∀ c ∈ d3, c.isDigit = true) ∧ suffixOk suf = true

/-! ### The release-state engine (`ReleaseApp`, `script.js:162-583`)

The engine's remote facts (branch existence, manifest contents, ref
comparison, release list) are oracle parameters: `checkBranchExists`
never raises (its `try/catch` degrades to `false`, `script.js:40-47`),
`compareCommits` returns `null` on any error (`script.js:49-55`, modeled
as `none`), and a failed `getPackageJson` throw is modeled as `none`.
DOM writes become record fields. -/

/-- One commit of a `compareCommits` response. -/
structure Commit where
  sha : String
  message : String
deriving DecidableEq

/-- A `compareCommits` response body (`{commits: [...]}`). -/
structure Comparison where
  commits : List Commit
deriving DecidableEq

/-- One entry of the fetched release list. -/
structure Release where
  tag_name : String
  prerelease : Bool
deriving DecidableEq

/-- The remote facts one evaluation of `checkReleaseSteps` consumes. -/
structure StepFacts where
  branchExists : Bool
  packageVersion : Option String
  fromVersionInput : String
  comparison : Option Comparison
  releases : List Release
deriving DecidableEq

/-- The manifest-version comparison of `checkReleaseSteps`
(`script.js:430-441`): `expectedVersion = version.replace(/^v/, "")`,
pass iff `actualVersion === expectedVersion`.  Only the target version
is stripped of its `v` prefix. -/
def packageVersionMatches (version actualVersion : String) : Bool :=
  actualVersion == stripVS version

/-- `ReleaseApp.checkCherryPickedCommits` (`script.js:492-513`): `none`
means the cherry-pick info is hidden; `some l` means the list `l` is
shown (`[]` renders as "None").  A `null` comparison falls into the
`else` branch and shows the empty list. -/
def checkCherryPickedCommits (fromVersionRaw : String)
    (comparison : Option Comparison) : Option (List Commit) :=
  let fromVersionInput := jsTrim fromVersionRaw
  if fromVersionInput = "" then none
  else
    match comparison with
    | some comp => if 0 < comp.commits.length then some comp.commits else some []
    | none => some []

/-- `ReleaseApp.checkGitHubReleaseExists` (`script.js:553-574`): pass iff
the already-fetched release list has a tag exactly `` `${version}-vscode` ``. -/
def checkGitHubReleaseExists (releases : List Release) (version : String) : Bool :=
  (releases.find? (fun r => r.tag_name == version ++ "-vscode")).isSome

/-- The pass/fail outcome of one `checkReleaseSteps` evaluation. -/
structure ChecklistState where
  releaseBranchExists : Bool
  packageVersionOk : Bool
  cherryPicked : Option (List Commit)
  githubReleasePublished : Bool
deriving DecidableEq

/-- `ReleaseApp.checkReleaseSteps` (`script.js:391-478`).  The release
branch name is `` `${version}-vscode-release` ``; if the branch is
missing, the package check fails with "Release branch not created" and
the cherry-pick info is hidden; the published-release check runs
independently of the branch state. -/
def checkReleaseSteps (version : String) (facts : StepFacts) : ChecklistState :=
  if facts.branchExists then
    { releaseBranchExists := true
      packageVersionOk :=
        match facts.packageVersion with
        | some actualVersion => packageVersionMatches version actualVersion
        | none => false
      cherryPicked := checkCherryPickedCommits facts.fromVersionInput facts.comparison
      githubReleasePublished := checkGitHubReleaseExists facts.releases version }
  else
    { releaseBranchExists := false
      packageVersionOk := false
      cherryPicked := none
      githubReleasePublished := checkGitHubReleaseExists facts.releases version }

/-- The rendered release-process steps of `ReleaseApp.generateReleaseSteps`
(`script.js:351-383`). -/
structure ReleaseSteps where
  createReleaseBranchCommand : String
  targetVersionText : String
  pushReleaseBranchCommand : String
  releaseTag : String
  releaseTargetBranch : String
deriving DecidableEq

/-- `ReleaseApp.generateReleaseSteps` (`script.js:351-383`): the base
branch is the trimmed "from version" field when non-empty (`||`), else
`` `v${clean.split(".")[0]}.${parseInt(clean.split(".")[1]) + 1}.x-vscode` ``. -/
def generateReleaseSteps (version fromVersionRaw : String) : ReleaseSteps :=
  let cleanVersion := stripVS version
  let fromVersionInput := jsTrim fromVersionRaw
  let sparts := splitOnC '.' cleanVersion.data
  let majorStr : String := ⟨sparts.headD []⟩
  let minorSuccStr : String :=
    match sparts[1]? with
    | some cs =>
      match jsParseInt cs with
      | some n => natString (n + 1)
      | none => "NaN"
    | none => "NaN"
  let baseBranch :=
    if fromVersionInput = "" then
      "v" ++ majorStr ++ "." ++ minorSuccStr ++ ".x-vscode"
    else fromVersionInput
  { createReleaseBranchCommand :=
      "git checkout -b " ++ version ++ "-vscode-release " ++ baseBranch
    targetVersionText := cleanVersion
    pushReleaseBranchCommand := "git push origin " ++ version ++ "-vscode-release"
    releaseTag := version ++ "-vscode"
    releaseTargetBranch := version ++ "-vscode-release" }

/-- The engine state the target-version handler can overwrite: the
rendered steps and the checklist (both `none` before first generation). -/
structure AppState where
  steps : Option ReleaseSteps
  checklist : Option ChecklistState
deriving DecidableEq

/-- `ReleaseApp.validateVersion` (`script.js:319-332`): only when the
trimmed input is non-empty and validates does it regenerate the steps
and re-run the checks; otherwise the existing state is kept. -/
def validateVersion (st : AppState) (versionRaw fromVersionRaw : String)
    (facts : StepFacts) : AppState :=
  let versionInput := jsTrim versionRaw
  if versionInput ≠ "" ∧ isValidSemver versionInput = true then
    { steps := some (generateReleaseSteps versionInput fromVersionRaw)
      checklist := some (checkReleaseSteps versionInput facts) }
  else st

/-! ### Basic facts about the character-level helpers -/

theorem digit_facts {c : Char} (h : c.isDigit = true) :
    c ≠ '.' ∧ c ≠ '-' ∧ c ≠ '+' ∧ c ≠ 'v' := by
  refine ⟨?_, ?_, ?_, ?_⟩ <;> rintro rfl <;> revert h <;> decide

theorem splitOnC_ne_nil (sep : Char) (l : List Char) : splitOnC sep l ≠ [] := by
  cases l with
  | nil => simp [splitOnC]
  | cons c rest =>
    simp only [splitOnC]
    split_ifs
    · simp
    · cases h : splitOnC sep rest <;> simp

theorem headD_splitOnC (sep : Char) (l : List Char) :
    (splitOnC sep l).headD [] = l.takeWhile (fun c => decide (c ≠ sep)) := by
  induction l with
  | nil => rfl
  | cons c rest ih =>
    simp only [splitOnC]
    by_cases hc : c = sep
    · subst hc
      simp [List.takeWhile_cons]
    · rw [if_neg hc]
      cases h : splitOnC sep rest with
      | nil => exact absurd h (splitOnC_ne_nil sep rest)
      | cons h0 t0 =>
        have hh : h0 = rest.takeWhile (fun c => decide (c ≠ sep)) := by
          rw [← ih, h]; rfl
        simp [List.takeWhile_cons, hc, hh]

theorem splitOnC_not_mem {sep : Char} {l : List Char} (h : ∀ c ∈ l, c ≠ sep) :
    splitOnC sep l = [l] := by
  induction l with
  | nil => rfl
  | cons c rest ih =>
    simp only [splitOnC]
    rw [if_neg (h c (by simp)), ih (fun x hx => h x (by simp [hx]))]

theorem splitOnC_append {sep : Char} {l1 l2 : List Char} (h : ∀ c ∈ l1, c ≠ sep) :
    splitOnC sep (l1 ++ sep :: l2) = l1 :: splitOnC sep l2 := by
  induction l1 with
  | nil => simp [splitOnC]
  | cons c rest ih =>
    simp only [List.cons_append, splitOnC, List.append_eq]
    rw [if_neg (h c (by simp)), ih (fun x hx => h x (by simp [hx]))]

theorem cleanVer_eq (s : String) :
    cleanVer s = (stripVC s.data).takeWhile (fun c => decide (c ≠ '-')) :=
  headD_splitOnC '-' (stripVC s.data)

/-! ### Decimal digits -/

theorem natDigitsAux_spec :
    ∀ fuel n : Nat, n < fuel →
      natDigitsAux fuel n ≠ [] ∧ (∀ c ∈ natDigitsAux fuel n, c.isDigit = true) ∧
        digitsToNat (natDigitsAux fuel n) = n := by
  intro fuel
  induction fuel with
  | zero => intro n h; omega
  | succ f ih =>
    intro n h
    simp only [natDigitsAux]
    by_cases h10 : n < 10
    · rw [if_pos h10]
      refine ⟨by simp, ?_, ?_⟩
      · intro c hc
        simp only [List.mem_singleton] at hc
        subst hc
        interval_cases n <;> decide
      · simp only [digitsToNat, List.foldl_cons, List.foldl_nil]
        interval_cases n <;> decide
    · rw [if_neg h10]
      have hrec : n / 10 < f := by omega
      obtain ⟨hne, hdig, hval⟩ := ih (n / 10) hrec
      refine ⟨by simp [hne], ?_, ?_⟩
      · intro c hc
        rcases List.mem_append.mp hc with hc | hc
        · exact hdig c hc
        · simp only [List.mem_singleton] at hc
          subst hc
          have : n % 10 < 10 := Nat.mod_lt _ (by omega)
          interval_cases hm : (n % 10) <;> decide
      · simp only [digitsToNat, List.foldl_append, List.foldl_cons, List.foldl_nil]
        have hm : n % 10 < 10 := Nat.mod_lt _ (by omega)
        have hd : digitVal (Nat.digitChar (n % 10)) = n % 10 := by
          interval_cases hmm : (n % 10) <;> decide
        simp only [digitsToNat] at hval
        rw [hval, hd]
        omega

theorem natDigits_spec (n : Nat) :
    natDigits n ≠ [] ∧ (∀ c ∈ natDigits n, c.isDigit = true) ∧
      digitsToNat (natDigits n) = n :=
  natDigitsAux_spec (n + 1) n (by omega)

theorem jsNum_digits {d : List Char} (hne : d ≠ []) (hdig : ∀ c ∈ d, c.isDigit = true) :
    jsNum d = some (digitsToNat d) := by
  unfold jsNum
  rw [if_neg hne, if_pos (List.all_eq_true.mpr hdig)]

/-! ### Characterization of the `isValidSemver` matcher -/

theorem chopNumDot_some_iff {cs d t : List Char} :
    chopNumDot cs = some (d, t) ↔
      d ≠ [] ∧ (∀ c ∈ d, c.isDigit = true) ∧ cs = d ++ '.' :: t := by
  constructor
  · intro h
    unfold chopNumDot at h
    split_ifs at h with h1
    rcases hdrop : cs.dropWhile Char.isDigit with _ | ⟨c, t'⟩ <;> rw [hdrop] at h
    · simp at h
    · simp only [] at h
      split_ifs at h with hc
      simp only [Option.some.injEq, Prod.mk.injEq] at h
      obtain ⟨hd, ht⟩ := h
      subst hd; subst ht; subst hc
      refine ⟨h1, fun c hc => List.mem_takeWhile_imp hc, ?_⟩
      conv_lhs => rw [← List.takeWhile_append_dropWhile Char.isDigit cs]
      rw [hdrop]
  · rintro ⟨hne, hdig, rfl⟩
    unfold chopNumDot
    have ht : (d ++ '.' :: t).takeWhile Char.isDigit = d := by
      rw [List.takeWhile_append_of_pos hdig, List.takeWhile_cons_of_neg (by decide)]
      simp
    have hd : (d ++ '.' :: t).dropWhile Char.isDigit = '.' :: t := by
      rw [List.dropWhile_append_of_pos hdig, List.dropWhile_cons_of_neg (by decide)]
    rw [ht, hd, if_neg hne]
    simp

theorem suffixOk_cases {suf : List Char} (h : suffixOk suf = true) :
    suf = [] ∨ (∃ r, suf = '-' :: r) ∨ (∃ r, suf = '+' :: r) := by
  cases suf with
  | nil => exact Or.inl rfl
  | cons c rest =>
    right
    unfold suffixOk at h
    simp only [] at h
    split_ifs at h with h1
    · exact Or.inl ⟨rest, by rw [h1]⟩
    · unfold buildOk at h
      simp only [] at h
      split_ifs at h with h2
      exact Or.inr ⟨rest, by rw [h2]⟩

theorem takeWhile_digit_suffix {d suf : List Char}
    (hdig : ∀ c ∈ d, c.isDigit = true) (hsuf : suffixOk suf = true) :
    (d ++ suf).takeWhile Char.isDigit = d ∧
      (d ++ suf).dropWhile Char.isDigit = suf := by
  rw [List.takeWhile_append_of_pos hdig, List.dropWhile_append_of_pos hdig]
  rcases suffixOk_cases hsuf with rfl | ⟨r, rfl⟩ | ⟨r, rfl⟩
  · simp
  · rw [List.takeWhile_cons_of_neg (by decide), List.dropWhile_cons_of_neg (by decide)]
    simp
  · rw [List.takeWhile_cons_of_neg (by decide), List.dropWhile_cons_of_neg (by decide)]
    simp

theorem parseSemver_some_iff {s : String} {M m p : Nat} :
    parseSemver s = some (M, m, p) ↔
      ∃ d1 d2 d3 suf, stripVC s.data = d1 ++ '.' :: (d2 ++ '.' :: (d3 ++ suf)) ∧
        d1 ≠ [] ∧ d2 ≠ [] ∧ d3 ≠ [] ∧
        (∀ c ∈ d1, c.isDigit = true) ∧ (∀ c ∈ d2, c.isDigit = true) ∧
        (∀ c ∈ d3, c.isDigit = true) ∧ suffixOk suf = true ∧
        M = digitsToNat d1 ∧ m = digitsToNat d2 ∧ p = digitsToNat d3 := by
  constructor
  · intro h
    unfold parseSemver at h
    rcases h1 : chopNumDot (stripVC s.data) with _ | ⟨d1, r1⟩ <;> rw [h1] at h
    · simp at h
    · simp only [] at h
      rcases h2 : chopNumDot r1 with _ | ⟨d2, r2⟩ <;> rw [h2] at h
      · simp at h
      · simp only [] at h
        split_ifs at h with h3 h4
        simp only [Option.some.injEq, Prod.mk.injEq] at h
        obtain ⟨hM, hm, hp⟩ := h
        obtain ⟨hne1, hdig1, hcs1⟩ := chopNumDot_some_iff.mp h1
        obtain ⟨hne2, hdig2, hcs2⟩ := chopNumDot_some_iff.mp h2
        refine ⟨d1, d2, r2.takeWhile Char.isDigit, r2.dropWhile Char.isDigit,
          ?_, hne1, hne2, h3, hdig1, hdig2,
          fun c hc => List.mem_takeWhile_imp hc, h4, hM.symm, hm.symm, hp.symm⟩
        rw [hcs1, hcs2, List.takeWhile_append_dropWhile]
  · rintro ⟨d1, d2, d3, suf, hcs, h1, h2, h3, hd1, hd2, hd3, hsuf, rfl, rfl, rfl⟩
    unfold parseSemver
    rw [chopNumDot_some_iff.mpr ⟨h1, hd1, hcs⟩]
    simp only []
    rw [chopNumDot_some_iff.mpr ⟨h2, hd2, rfl⟩]
    simp only []
    obtain ⟨ht, hd⟩ := takeWhile_digit_suffix hd3 hsuf
    rw [ht, hd, if_neg h3, if_pos hsuf]

theorem isValidSemver_iff_matches {s : String} :
    isValidSemver s = true ↔ MatchesGrammar (stripVC s.data) := by
  unfold isValidSemver
  rw [Option.isSome_iff_exists]
  constructor
  · rintro ⟨⟨M, m, p⟩, h⟩
    obtain ⟨d1, d2, d3, suf, hcs, h1, h2, h3, hd1, hd2, hd3, hsuf, -, -, -⟩ :=
      parseSemver_some_iff.mp h
    exact ⟨d1, d2, d3, suf, hcs, h1, h2, h3, hd1, hd2, hd3, hsuf⟩
  · rintro ⟨d1, d2, d3, suf, hcs, h1, h2, h3, hd1, hd2, hd3, hsuf⟩
    exact ⟨(digitsToNat d1, digitsToNat d2, digitsToNat d3),
      parseSemver_some_iff.mpr
        ⟨d1, d2, d3, suf, hcs, h1, h2, h3, hd1, hd2, hd3, hsuf, rfl, rfl, rfl⟩⟩

/-! ### The parts array of a validated version without bare build metadata -/

theorem numParts_eq {v : String} {M m p : Nat}
    (h : parseSemver v = some (M, m, p)) (hnb : noBuild v = true) :
    numParts v = [some M, some m, some p] := by
  obtain ⟨d1, d2, d3, suf, hcs, h1, h2, h3, hd1, hd2, hd3, hsuf, hM, hm, hp⟩ :=
    parseSemver_some_iff.mp h
  have hT : ∀ c ∈ d1 ++ '.' :: (d2 ++ '.' :: d3), (fun c => decide (c ≠ '-')) c = true := by
    intro c hc
    simp only [decide_eq_true_eq]
    simp only [List.mem_append, List.mem_cons] at hc
    rcases hc with hc | rfl | hc | rfl | hc
    · exact (digit_facts (hd1 c hc)).2.1
    · decide
    · exact (digit_facts (hd2 c hc)).2.1
    · decide
    · exact (digit_facts (hd3 c hc)).2.1
  have hrw : stripVC v.data = (d1 ++ '.' :: (d2 ++ '.' :: d3)) ++ suf := by
    rw [hcs]; simp
  have hsufNE : ∀ r, suf = '+' :: r → False := by
    intro r hr
    subst hr
    have hclean : cleanVer v =
        (d1 ++ '.' :: (d2 ++ '.' :: d3)) ++
          '+' :: (r.takeWhile fun c => decide (c ≠ '-')) := by
      rw [cleanVer_eq, hrw, List.takeWhile_append_of_pos hT,
        List.takeWhile_cons_of_pos (by decide)]
    have hmem : '+' ∈ cleanVer v := by
      rw [hclean]
      exact List.mem_append_right _ (List.mem_cons_self _ _)
    unfold noBuild at hnb
    simp only [Bool.not_eq_true', List.any_eq_false, decide_eq_true_eq] at hnb
    exact hnb '+' hmem rfl
  have hsuf2 : suf = [] ∨ ∃ r, suf = '-' :: r := by
    rcases suffixOk_cases hsuf with h' | h' | ⟨r, hr⟩
    · exact Or.inl h'
    · exact Or.inr h'
    · exact absurd hr (fun hh => hsufNE r hh)
  have hclean : cleanVer v = d1 ++ '.' :: (d2 ++ '.' :: d3) := by
    rw [cleanVer_eq, hrw, List.takeWhile_append_of_pos hT]
    rcases hsuf2 with rfl | ⟨r, rfl⟩
    · simp
    · rw [List.takeWhile_cons_of_neg (by decide)]
      simp
  unfold numParts
  rw [hclean, splitOnC_append (fun c hc => (digit_facts (hd1 c hc)).1),
      splitOnC_append (fun c hc => (digit_facts (hd2 c hc)).1),
      splitOnC_not_mem (fun c hc => (digit_facts (hd3 c hc)).1)]
  simp [jsNum_digits h1 hd1, jsNum_digits h2 hd2, jsNum_digits h3 hd3, hM, hm, hp]

/-! ### The version utilities on a three-element parts array -/

theorem compareSemver_parts {v w : String} {a b c d e f : Nat}
    (hv : numParts v = [some a, some b, some c])
    (hw : numParts w = [some d, some e, some f]) :
    compareSemver v w = tripleCompare (a, b, c) (d, e, f) := by
  unfold compareSemver tripleCompare
  simp only [hv, hw, List.getElem?_cons_zero, List.getElem?_cons_succ,
    jsGtIdx, jsLtIdx, decide_eq_true_eq]

theorem isNextVersion_parts {v w : String} {a b c d e f : Nat}
    (hv : numParts v = [some a, some b, some c])
    (hw : numParts w = [some d, some e, some f]) :
    isNextVersion v w =
      if f = c + 1 ∧ e = b ∧ d = a then some "patch"
      else if e = b + 1 ∧ f = 0 ∧ d = a then some "minor"
      else if d = a + 1 ∧ e = 0 ∧ f = 0 then some "major"
      else none := by
  unfold isNextVersion
  simp only [hv, hw, List.getElem?_cons_zero, List.getElem?_cons_succ,
    jsEqIdx, jsSuccIdx, Bool.and_eq_true, decide_eq_true_eq, and_assoc]

theorem getNextVersion_parts {v : String} {a b c : Nat}
    (hv : numParts v = [some a, some b, some c]) :
    getNextVersion v "patch" =
      "v" ++ natString a ++ "." ++ natString b ++ "." ++ natString (c + 1) ∧
    getNextVersion v "minor" =
      "v" ++ natString a ++ "." ++ natString (b + 1) ++ ".0" ∧
    getNextVersion v "major" = "v" ++ natString (a + 1) ++ ".0.0" := by
  have h1 : ("patch" : String) ≠ "major" := by decide
  have h2 : ("patch" : String) ≠ "minor" := by decide
  have h3 : ("minor" : String) ≠ "major" := by decide
  refine ⟨?_, ?_, ?_⟩ <;>
    simp [getNextVersion, hv, jsShowIdx, jsSuccIdx, h1, h2, h3]

/-! ### Strings built from a numeric triple -/

theorem takeWhile_all {p : Char → Bool} {l : List Char}
    (h : ∀ c ∈ l, p c = true) : l.takeWhile p = l := by
  induction l with
  | nil => rfl
  | cons c t ih =>
    rw [List.takeWhile_cons_of_pos (h c (by simp)), ih (fun x hx => h x (by simp [hx]))]

theorem stripVC_cons_ne {c : Char} {t : List Char} (h : c ≠ 'v') :
    stripVC (c :: t) = c :: t := by
  simp [stripVC, h]

theorem natString_data (n : Nat) : (natString n).data = natDigits n := rfl

theorem parseSemver_construct {a b c : Nat} {suf : List Char}
    (hsuf : suffixOk suf = true) {s : String}
    (h : stripVC s.data = natDigits a ++ '.' :: (natDigits b ++ '.' :: (natDigits c ++ suf))) :
    parseSemver s = some (a, b, c) :=
  parseSemver_some_iff.mpr
    ⟨natDigits a, natDigits b, natDigits c, suf, h,
      (natDigits_spec a).1, (natDigits_spec b).1, (natDigits_spec c).1,
      (natDigits_spec a).2.1, (natDigits_spec b).2.1, (natDigits_spec c).2.1,
      hsuf, (natDigits_spec a).2.2.symm, (natDigits_spec b).2.2.symm,
      (natDigits_spec c).2.2.symm⟩

theorem cleanVer_of_data_triple {a b c : Nat} {s : String}
    (h : stripVC s.data = natDigits a ++ '.' :: (natDigits b ++ '.' :: natDigits c)) :
    cleanVer s = natDigits a ++ '.' :: (natDigits b ++ '.' :: natDigits c) ∧
      noBuild s = true := by
  have hT : ∀ ch ∈ natDigits a ++ '.' :: (natDigits b ++ '.' :: natDigits c),
      (fun ch => decide (ch ≠ '-')) ch = true := by
    intro ch hc
    simp only [decide_eq_true_eq]
    simp only [List.mem_append, List.mem_cons] at hc
    rcases hc with hc | rfl | hc | rfl | hc
    · exact (digit_facts ((natDigits_spec a).2.1 ch hc)).2.1
    · decide
    · exact (digit_facts ((natDigits_spec b).2.1 ch hc)).2.1
    · decide
    · exact (digit_facts ((natDigits_spec c).2.1 ch hc)).2.1
  have hclean : cleanVer s = natDigits a ++ '.' :: (natDigits b ++ '.' :: natDigits c) := by
    rw [cleanVer_eq, h, takeWhile_all hT]
  refine ⟨hclean, ?_⟩
  unfold noBuild
  simp only [Bool.not_eq_true', List.any_eq_false, decide_eq_true_eq]
  intro x hx
  rw [hclean] at hx
  simp only [List.mem_append, List.mem_cons] at hx
  rcases hx with hx | rfl | hx | rfl | hx
  · exact (digit_facts ((natDigits_spec a).2.1 x hx)).2.2.1
  · decide
  · exact (digit_facts ((natDigits_spec b).2.1 x hx)).2.2.1
  · decide
  · exact (digit_facts ((natDigits_spec c).2.1 x hx)).2.2.1

theorem numParts_of_data {a b c : Nat} {s : String}
    (h : stripVC s.data = natDigits a ++ '.' :: (natDigits b ++ '.' :: natDigits c)) :
    numParts s = [some a, some b, some c] ∧ noBuild s = true := by
  obtain ⟨hclean, hnb⟩ := cleanVer_of_data_triple h
  refine ⟨?_, hnb⟩
  unfold numParts
  rw [hclean,
    splitOnC_append (fun x hx => (digit_facts ((natDigits_spec a).2.1 x hx)).1),
    splitOnC_append (fun x hx => (digit_facts ((natDigits_spec b).2.1 x hx)).1),
    splitOnC_not_mem (fun x hx => (digit_facts ((natDigits_spec c).2.1 x hx)).1)]
  simp [jsNum_digits (natDigits_spec a).1 (natDigits_spec a).2.1,
    jsNum_digits (natDigits_spec b).1 (natDigits_spec b).2.1,
    jsNum_digits (natDigits_spec c).1 (natDigits_spec c).2.1,
    (natDigits_spec a).2.2, (natDigits_spec b).2.2, (natDigits_spec c).2.2]

theorem bump_data_patch {a b c : Nat} :
    ("v" ++ natString a ++ "." ++ natString b ++ "." ++ natString (c + 1) : String).data
      = 'v' :: (natDigits a ++ '.' :: (natDigits b ++ '.' :: natDigits (c + 1))) := by
  simp [String.data_append, natString_data]

theorem bump_data_minor {a b : Nat} :
    ("v" ++ natString a ++ "." ++ natString (b + 1) ++ ".0" : String).data
      = 'v' :: (natDigits a ++ '.' :: (natDigits (b + 1) ++ '.' :: natDigits 0)) := by
  simp [String.data_append, natString_data]
  rfl

theorem bump_data_major {a : Nat} :
    ("v" ++ natString (a + 1) ++ ".0.0" : String).data
      = 'v' :: (natDigits (a + 1) ++ '.' :: (natDigits 0 ++ '.' :: natDigits 0)) := by
  simp [String.data_append, natString_data]
  rfl

/-! ## Claim theorems -/

/-- Claim C1 (corrected): for validator-accepted version strings whose
optional suffix does not put build metadata directly after the patch
component (any `'+'` occurs only after the pre-release `'-'`),
`compareSemver` returns exactly the lexicographic comparison of the
(major, minor, patch) triples, with everything from the first `'-'`
stripped first — so it is suffix-insensitive and a total order on the
triple projection.  A bare `+build` suffix is not stripped by
`split("-")[0]` and turns the patch component into `NaN`, so the claim
fails there (see the counterexample). -/
theorem compareSemver_triple_lex (a b : String) (ta tb : Nat × Nat × Nat)
    (ha : parseSemver a = some ta) (hb : parseSemver b = some tb)
    (hna : noBuild a = true) (hnb : noBuild b = true) :
    compareSemver a b = tripleCompare ta tb := by
  obtain ⟨a1, a2, a3⟩ := ta
  obtain ⟨b1, b2, b3⟩ := tb
  exact compareSemver_parts (numParts_eq ha hna) (numParts_eq hb hnb)

/-- Witness for C1: `compare("v2.0.0-beta", "2.0.0") == 0`. -/
theorem compareSemver_triple_lex_witness :
    compareSemver "v2.0.0-beta" "2.0.0" = 0 := by
  have h := compareSemver_triple_lex "v2.0.0-beta" "2.0.0" (2, 0, 0) (2, 0, 0)
    (by decide) (by decide) (by decide) (by decide)
  rw [h]
  decide

/-- Counterexample for C1 as stated: `"1.2.3+build"` and `"1.2.4"` are
both accepted by the validator and their numeric triples differ in the
patch component, yet `compareSemver` returns `0`, not `-1`: the bare
build-metadata suffix is not stripped, so the patch part `"3+build"` maps
to `NaN` and never decides the comparison. -/
theorem compareSemver_buildmeta_counterexample :
    isValidSemver "1.2.3+build" = true ∧ isValidSemver "1.2.4" = true ∧
    parseSemver "1.2.3+build" = some (1, 2, 3) ∧
    parseSemver "1.2.4" = some (1, 2, 4) ∧
    compareSemver "1.2.3+build" "1.2.4" = 0 ∧
    tripleCompare (1, 2, 3) (1, 2, 4) = -1 := by
  decide

/-- Claim C2 (corrected): for validator-accepted versions without bare
build metadata, `isNextVersion` classifies exactly the three direct
successors — `"patch"` iff the candidate is (major, minor, patch+1),
`"minor"` iff (major, minor+1, 0), `"major"` iff (major+1, 0, 0) — and
returns `false` (`none`) in every other case, including equal versions
and skipped values.  A bare `+build` suffix on either argument makes the
patch component `NaN` and defeats the classification (see the
counterexample). -/
theorem isNextVersion_classifies (cur nxt : String) (a b c d e f : Nat)
    (hc : parseSemver cur = some (a, b, c)) (hn : parseSemver nxt = some (d, e, f))
    (h1 : noBuild cur = true) (h2 : noBuild nxt = true) :
    isNextVersion cur nxt =
      if d = a ∧ e = b ∧ f = c + 1 then some "patch"
      else if d = a ∧ e = b + 1 ∧ f = 0 then some "minor"
      else if d = a + 1 ∧ e = 0 ∧ f = 0 then some "major"
      else none := by
  rw [isNextVersion_parts (numParts_eq hc h1) (numParts_eq hn h2)]
  split_ifs <;> first | rfl | (exfalso; omega)

/-- Witness for C2: `classifyBump("v1.2.3", "v1.2.4") == "patch"`. -/
theorem isNextVersion_classifies_witness :
    isNextVersion "v1.2.3" "v1.2.4" = some "patch" := by
  have h := isNextVersion_classifies "v1.2.3" "v1.2.4" 1 2 3 1 2 4
    (by decide) (by decide) (by decide) (by decide)
  rw [h]
  decide

/-- Counterexample for C2 as stated: `"1.2.3+build"` is a valid version
with triple (1,2,3) and `"1.2.4"` is its exact patch successor, yet
`isNextVersion` returns `false` (`none`) instead of `"patch"`. -/
theorem isNextVersion_buildmeta_counterexample :
    isValidSemver "1.2.3+build" = true ∧ isValidSemver "1.2.4" = true ∧
    parseSemver "1.2.3+build" = some (1, 2, 3) ∧
    parseSemver "1.2.4" = some (1, 2, 4) ∧
    isNextVersion "1.2.3+build" "1.2.4" = none := by
  decide

/-- Claim C3 (corrected): for validator-accepted versions without bare
build metadata, `getNextVersion` increments exactly the requested
component — patch: (M, m, p+1); minor: (M, m+1, 0); major: (M+1, 0, 0) —
and drops any pre-release suffix.  On a version with a bare `+build`
suffix the patch component is `NaN` and the patch bump produces the
non-version `"v1.2.NaN"` (see the counterexample). -/
theorem getNextVersion_bumps (v : String) (M m p : Nat)
    (h : parseSemver v = some (M, m, p)) (hn : noBuild v = true) :
    getNextVersion v "patch" =
      "v" ++ natString M ++ "." ++ natString m ++ "." ++ natString (p + 1) ∧
    getNextVersion v "minor" =
      "v" ++ natString M ++ "." ++ natString (m + 1) ++ ".0" ∧
    getNextVersion v "major" = "v" ++ natString (M + 1) ++ ".0.0" :=
  getNextVersion_parts (numParts_eq h hn)

/-- Witness for C3: `next("v1.4.9", "minor") == "v1.5.0"`. -/
theorem getNextVersion_bumps_witness :
    getNextVersion "v1.4.9" "minor" = "v1.5.0" := by
  have h := (getNextVersion_bumps "v1.4.9" 1 4 9 (by decide) (by decide)).2.1
  rw [h]
  decide

/-- Counterexample for C3 as stated: `"1.2.3+build"` is accepted by the
validator with triple (1,2,3), but the patch bump yields `"v1.2.NaN"`
instead of `"v1.2.4"`. -/
theorem getNextVersion_buildmeta_counterexample :
    isValidSemver "1.2.3+build" = true ∧
    parseSemver "1.2.3+build" = some (1, 2, 3) ∧
    getNextVersion "1.2.3+build" "patch" = "v1.2.NaN" := by
  decide

/-- Claim C4 (confirmed): for every triple of naturals and every suffix
in the optional `-prerelease` / `+buildmeta` grammar, the validator
accepts `"M.m.p"` and `"vM.m.p"` (stripping exactly one leading `v`) with
that suffix appended, and the regex's three digit groups recover exactly
(M, m, p); and a string is accepted iff, after stripping one leading `v`,
it matches the numeric-triple grammar. -/
theorem isValidSemver_grammar :
    (∀ M m p : Nat, ∀ suf : List Char, suffixOk suf = true →
      parseSemver ("v" ++ natString M ++ "." ++ natString m ++ "." ++
          natString p ++ (⟨suf⟩ : String)) = some (M, m, p) ∧
      parseSemver (natString M ++ "." ++ natString m ++ "." ++
          natString p ++ (⟨suf⟩ : String)) = some (M, m, p) ∧
      isValidSemver ("v" ++ natString M ++ "." ++ natString m ++ "." ++
          natString p ++ (⟨suf⟩ : String)) = true ∧
      isValidSemver (natString M ++ "." ++ natString m ++ "." ++
          natString p ++ (⟨suf⟩ : String)) = true) ∧
    (∀ s : String, isValidSemver s = true ↔ MatchesGrammar (stripVC s.data)) := by
  constructor
  · intro M m p suf hsuf
    have hdata1 : ("v" ++ natString M ++ "." ++ natString m ++ "." ++
        natString p ++ (⟨suf⟩ : String)).data
        = 'v' :: (natDigits M ++ '.' :: (natDigits m ++ '.' :: (natDigits p ++ suf))) := by
      simp [String.data_append, natString_data]
    have hdata2 : (natString M ++ "." ++ natString m ++ "." ++
        natString p ++ (⟨suf⟩ : String)).data
        = natDigits M ++ '.' :: (natDigits m ++ '.' :: (natDigits p ++ suf)) := by
      simp [String.data_append, natString_data]
    have hstrip1 : stripVC ("v" ++ natString M ++ "." ++ natString m ++ "." ++
        natString p ++ (⟨suf⟩ : String)).data
        = natDigits M ++ '.' :: (natDigits m ++ '.' :: (natDigits p ++ suf)) := by
      rw [hdata1]
      simp [stripVC]
    have hstrip2 : stripVC (natString M ++ "." ++ natString m ++ "." ++
        natString p ++ (⟨suf⟩ : String)).data
        = natDigits M ++ '.' :: (natDigits m ++ '.' :: (natDigits p ++ suf)) := by
      rw [hdata2]
      rcases hM : natDigits M with _ | ⟨c0, t0⟩
      · exact absurd hM (natDigits_spec M).1
      · have hc0 : c0 ≠ 'v' :=
          (digit_facts ((natDigits_spec M).2.1 c0 (by rw [hM]; exact List.mem_cons_self _ _))).2.2.2
        rw [List.cons_append, stripVC_cons_ne hc0]
    have h1 := parseSemver_construct hsuf hstrip1
    have h2 := parseSemver_construct hsuf hstrip2
    exact ⟨h1, h2, by simp [isValidSemver, h1], by simp [isValidSemver, h2]⟩
  · intro s
    exact isValidSemver_iff_matches

/-- Witness for C4: the validator accepts `"v1.2.3-beta"` and the digit
groups recover (1, 2, 3). -/
theorem isValidSemver_grammar_witness :
    isValidSemver "v1.2.3-beta" = true ∧ parseSemver "v1.2.3-beta" = some (1, 2, 3) := by
  have h := (isValidSemver_grammar.1 1 2 3 ('-' :: 'b' :: 'e' :: 't' :: 'a' :: [])
    (by decide))
  have e : ("v" ++ natString 1 ++ "." ++ natString 2 ++ "." ++ natString 3 ++
      (⟨'-' :: 'b' :: 'e' :: 't' :: 'a' :: []⟩ : String)) = "v1.2.3-beta" := by decide
  rw [e] at h
  exact ⟨h.2.2.1, h.1⟩

/-- Claim C10 (confirmed): for every validator-accepted version whose
suffix, if any, is a pre-release part (no bare build metadata — which is
all the claim asks, since it restricts to triples with an optional
`-prerelease` suffix), classifying the bump produced by `getNextVersion`
round-trips: `isNextVersion v (getNextVersion v k) = k` for each of
`"patch"`, `"minor"`, `"major"`. -/
theorem bump_roundtrip (v : String) (M m p : Nat)
    (h : parseSemver v = some (M, m, p)) (hn : noBuild v = true) :
    isNextVersion v (getNextVersion v "patch") = some "patch" ∧
    isNextVersion v (getNextVersion v "minor") = some "minor" ∧
    isNextVersion v (getNextVersion v "major") = some "major" := by
  have hv := numParts_eq h hn
  obtain ⟨hbp, hbm, hbM⟩ := getNextVersion_parts hv
  have hsp : stripVC ("v" ++ natString M ++ "." ++ natString m ++ "." ++
      natString (p + 1) : String).data
      = natDigits M ++ '.' :: (natDigits m ++ '.' :: natDigits (p + 1)) := by
    rw [bump_data_patch]
    simp [stripVC]
  have hsm : stripVC ("v" ++ natString M ++ "." ++ natString (m + 1) ++
      ".0" : String).data
      = natDigits M ++ '.' :: (natDigits (m + 1) ++ '.' :: natDigits 0) := by
    rw [bump_data_minor]
    simp [stripVC]
  have hsM : stripVC ("v" ++ natString (M + 1) ++ ".0.0" : String).data
      = natDigits (M + 1) ++ '.' :: (natDigits 0 ++ '.' :: natDigits 0) := by
    rw [bump_data_major]
    simp [stripVC]
  refine ⟨?_, ?_, ?_⟩
  · rw [hbp, isNextVersion_parts hv (numParts_of_data hsp).1,
      if_pos ⟨rfl, rfl, rfl⟩]
  · rw [hbm, isNextVersion_parts hv (numParts_of_data hsm).1,
      if_neg (by omega), if_pos ⟨rfl, rfl, rfl⟩]
  · rw [hbM, isNextVersion_parts hv (numParts_of_data hsM).1,
      if_neg (by omega), if_neg (by omega), if_pos ⟨rfl, rfl, rfl⟩]

/-- Witness for C10 at `v = "v1.2.3"`. -/
theorem bump_roundtrip_witness :
    isNextVersion "v1.2.3" (getNextVersion "v1.2.3" "patch") = some "patch" ∧
    isNextVersion "v1.2.3" (getNextVersion "v1.2.3" "minor") = some "minor" ∧
    isNextVersion "v1.2.3" (getNextVersion "v1.2.3" "major") = some "major" :=
  bump_roundtrip "v1.2.3" 1 2 3 (by decide) (by decide)

/-- Claim C5 (corrected): the manifest-version check strips a leading
`v` from the TARGET version only — it passes iff the manifest version
string equals the target with its `v` prefix removed.  A manifest version
`"1.2.4"` does match target `"v1.2.4"`, but a manifest carrying its own
`v` prefix is rejected even when both sides agree after stripping (see
the counterexample). -/
theorem manifestMatch_spec :
    (∀ targetVersion actualVersion : String,
      packageVersionMatches targetVersion actualVersion = true ↔
        actualVersion = stripVS targetVersion) ∧
    packageVersionMatches "v1.2.4" "1.2.4" = true ∧
    packageVersionMatches "v1.2.4" "v1.2.4" = false := by
  refine ⟨?_, by decide, by decide⟩
  intro t a
  unfold packageVersionMatches
  exact beq_iff_eq

/-- Counterexample for C5 as stated: target `"1.2.4"` and manifest
version `"v1.2.4"` are equal after stripping a leading `v` from both
sides, yet the check fails, because the code never strips the manifest
side. -/
theorem manifestMatch_counterexample :
    stripVS "1.2.4" = stripVS "v1.2.4" ∧
    packageVersionMatches "1.2.4" "v1.2.4" = false := by
  decide

/-- Claim C6 (confirmed): when the release branch exists but the ref
comparison fails (`compareCommits` returns `null`, modeled `none`, never
an exception), the branch-exists check still passes, the cherry-pick
section reports the empty commit list (rendered "None") rather than
aborting, and the other checks are unaffected by the comparison outcome. -/
theorem checkSteps_compareNull_independent (version : String) (facts : StepFacts)
    (hb : facts.branchExists = true) (hc : facts.comparison = none)
    (hf : ¬ jsTrim facts.fromVersionInput = "") :
    (checkReleaseSteps version facts).releaseBranchExists = true ∧
    (checkReleaseSteps version facts).cherryPicked = some [] ∧
    (∀ other : Option Comparison,
      (checkReleaseSteps version
        ⟨facts.branchExists, facts.packageVersion, facts.fromVersionInput,
          other, facts.releases⟩).releaseBranchExists
        = (checkReleaseSteps version facts).releaseBranchExists ∧
      (checkReleaseSteps version
        ⟨facts.branchExists, facts.packageVersion, facts.fromVersionInput,
          other, facts.releases⟩).packageVersionOk
        = (checkReleaseSteps version facts).packageVersionOk ∧
      (checkReleaseSteps version
        ⟨facts.branchExists, facts.packageVersion, facts.fromVersionInput,
          other, facts.releases⟩).githubReleasePublished
        = (checkReleaseSteps version facts).githubReleasePublished) := by
  refine ⟨?_, ?_, ?_⟩
  · simp [checkReleaseSteps, hb]
  · simp [checkReleaseSteps, checkCherryPickedCommits, hb, hc, hf]
  · intro other
    refine ⟨?_, ?_, ?_⟩ <;> simp [checkReleaseSteps, hb]

/-- Witness for C6 at a concrete fact set with an existing branch and a
failed (`null`) comparison. -/
theorem checkSteps_compareNull_witness :
    (checkReleaseSteps "v1.2.4"
      ⟨true, some "1.2.4", "v1.3.0-vscode", none, []⟩).releaseBranchExists = true ∧
    (checkReleaseSteps "v1.2.4"
      ⟨true, some "1.2.4", "v1.3.0-vscode", none, []⟩).cherryPicked = some [] := by
  have h := checkSteps_compareNull_independent "v1.2.4"
    ⟨true, some "1.2.4", "v1.3.0-vscode", none, []⟩ rfl rfl (by decide)
  exact ⟨h.1, h.2.1⟩

/-- Claim C7 (confirmed): the generated create-branch command names the
release branch `` `${version}-vscode-release` `` and bases it on the
trimmed "from version" input when non-empty, else on the fallback
`` `v${major}.${minor + 1}.x-vscode` `` computed from the target's
components (the major digit group textually, the minor numerically). -/
theorem generateReleaseSteps_spec (version fromVersionRaw : String) (M m p : Nat)
    (h : parseSemver version = some (M, m, p)) :
    (generateReleaseSteps version fromVersionRaw).createReleaseBranchCommand =
      "git checkout -b " ++ version ++ "-vscode-release " ++
        (if jsTrim fromVersionRaw = "" then
          "v" ++ (⟨(stripVC version.data).takeWhile Char.isDigit⟩ : String) ++ "." ++
            natString (m + 1) ++ ".x-vscode"
         else jsTrim fromVersionRaw) ∧
    (generateReleaseSteps version fromVersionRaw).releaseTargetBranch =
      version ++ "-vscode-release" ∧
    (generateReleaseSteps version fromVersionRaw).releaseTag =
      version ++ "-vscode" := by
  obtain ⟨d1, d2, d3, suf, hcs, h1, h2, h3, hd1, hd2, hd3, hsuf, hM, hm, hp⟩ :=
    parseSemver_some_iff.mp h
  have hsparts : splitOnC '.' (stripVS version).data
      = d1 :: d2 :: splitOnC '.' (d3 ++ suf) := by
    show splitOnC '.' (stripVC version.data) = _
    rw [hcs, splitOnC_append (fun x hx => (digit_facts (hd1 x hx)).1),
      splitOnC_append (fun x hx => (digit_facts (hd2 x hx)).1)]
  have htake : (stripVC version.data).takeWhile Char.isDigit = d1 := by
    rw [hcs, List.takeWhile_append_of_pos hd1, List.takeWhile_cons_of_neg (by decide)]
    simp
  have hparse2 : jsParseInt d2 = some (digitsToNat d2) := by
    unfold jsParseInt
    rw [takeWhile_all hd2, if_neg h2]
  refine ⟨?_, rfl, rfl⟩
  simp only [generateReleaseSteps, hsparts, htake, hparse2, hm,
    List.getElem?_cons_zero, List.getElem?_cons_succ, List.headD_cons]

/-- Witness for C7: target `"v1.2.4"` with an empty "from version" yields
`git checkout -b v1.2.4-vscode-release v1.3.x-vscode`. -/
theorem generateReleaseSteps_spec_witness :
    (generateReleaseSteps "v1.2.4" "").createReleaseBranchCommand =
      "git checkout -b v1.2.4-vscode-release v1.3.x-vscode" := by
  have h := (generateReleaseSteps_spec "v1.2.4" "" 1 2 4 (by decide)).1
  rw [h]
  decide

/-- Claim C8 (confirmed): an invalid (or blank) target-version edit
leaves the engine state untouched — the previously rendered steps and
checklist are kept and nothing is recomputed. -/
theorem validateVersion_invalid_noop (st : AppState)
    (versionRaw fromVersionRaw : String) (facts : StepFacts)
    (h : jsTrim versionRaw = "" ∨ isValidSemver (jsTrim versionRaw) = false) :
    validateVersion st versionRaw fromVersionRaw facts = st := by
  have hcond : ¬(jsTrim versionRaw ≠ "" ∧ isValidSemver (jsTrim versionRaw) = true) := by
    rintro ⟨hne, hval⟩
    rcases h with h | h
    · exact hne h
    · rw [h] at hval
      exact Bool.noConfusion hval
  simp only [validateVersion]
  rw [if_neg hcond]

/-- Witness for C8 at a concrete invalid edit. -/
theorem validateVersion_invalid_noop_witness :
    validateVersion ⟨none, none⟩ "not-a-version" "" ⟨false, none, "", none, []⟩
      = ⟨none, none⟩ :=
  validateVersion_invalid_noop ⟨none, none⟩ "not-a-version" ""
    ⟨false, none, "", none, []⟩ (Or.inr (by decide))

end ReleaseMan
